import Mathlib

/-!
# Cloudflare DoH provider client (`provider/cloudflare/cloudflare.go`)

A shallow embedding of the provider client and proofs about its query
construction and response validation.

Modelling conventions.

* Go `string` is `String`, so the strings covered are the valid UTF-8 ones; Go
  `int` is `Int` (no arithmetic is performed on it, so no overflow can occur).
* `strings.TrimSpace` and the verb `%d` belong to the Go standard library; they
  are written out from their documentation so that the model can be evaluated.
* Go `error` is `GoError`, a value carrying its message; the nil error is `none`.
* A result `(*doh.Response, error)` is `Option Response × Option GoError`.
* Go maps with string keys and values are association lists with unique keys
  (`GoMap`); the order of the list carries no meaning.
* The HTTP transport `*xhttp.Request` is an external collaborator.  It is a
  record of state-passing operations over an arbitrary state type `σ`, so every
  behaviour of it (also one that changes from call to call) is covered.
* Every call `ECSQuery` makes on the transport or on a response handle is
  appended to a trace, which is how call counts and releases are observed.
* `xip.FixSubnet` and the JSON decoder are pure external functions, collected
  in `Deps`.
-/

namespace Cloudflare

/-! ## Data model -/

/-- Go `error` value: carries the text returned by `Error()`. -/
structure GoError where
  msg : String
deriving DecidableEq, Repr

/-- Go map with string keys and string values, as an association list. -/
abbrev GoMap := List (String × String)

/-- Map read `m[k]`, with `none` for an absent key. -/
def GoMap.get (m : GoMap) (k : String) : Option String :=
  match m with
  | [] => none
  | (k1, v1) :: rest => if k1 = k then some v1 else GoMap.get rest k

/-- Map write `m[k] = v`: replaces the value of a present key, adds an absent one. -/
def GoMap.set (m : GoMap) (k v : String) : GoMap :=
  match m with
  | [] => [(k, v)]
  | (k1, v1) :: rest => if k1 = k then (k, v) :: rest else (k1, v1) :: GoMap.set rest k v

/-- Key set of a map. -/
def GoMap.keys (m : GoMap) : List String := m.map Prod.fst

/-- The type `xhttp.QueryParam` (query parameters of a request). -/
abbrev QueryParam := GoMap

/-- The type `xhttp.Header` (extra request headers). -/
abbrev Header := GoMap

/-- Modelled from the spec: the type `doh.Response`, declared in the root package of
the repository.  It holds an integer status code and the remaining decoded fields,
which are passed through opaquely. -/
structure Response where
  Status : Int
  fields : List (String × String)
deriving DecidableEq, Repr

/-- Identity of a `context.Context` value; it is only passed through. -/
abbrev Context := Nat

/-- Identity of a `*xhttp.Response` handed out by the transport. -/
abbrev Handle := Nat

/-- Calls made on the transport and on response handles. -/
inductive Event where
  | get (url : String) (param : QueryParam) (ctx : Context) (header : Header)
  | bytes (rsp : Handle)
  | close (rsp : Handle)
deriving DecidableEq, Repr

/-- The transport `*xhttp.Request` with the three operations the client uses:
`Get` on the request, `Bytes` and `Close` on the response it returns. -/
structure Request (σ : Type) where
  Get : σ → String → QueryParam → Context → Header → Except GoError Handle × σ
  Bytes : σ → Handle → Except GoError (List Nat) × σ
  Close : σ → Handle → σ

/-- Pure external functions: `xip.FixSubnet` and JSON decoding into `doh.Response`. -/
structure Deps where
  FixSubnet : String → Except GoError String
  Decode : List Nat → Except GoError Response

/-- State of the outside world together with the calls made so far. -/
structure World (σ : Type) where
  state : σ
  trace : List Event

/-- The struct `Client`. -/
structure Client (σ : Type) where
  provides : Int
  xhttp : Request σ

/-- The constant `DefaultProvides = iota`. -/
def DefaultProvides : Int := 0

/-- The table `Upstream`, a `map[int]string`. -/
def Upstream : List (Int × String) :=
  [(DefaultProvides, "https://cloudflare-dns.com/dns-query")]

/-- Map read `Upstream[p]`; an absent key reads as the zero value `""`. -/
def upstreamAt (m : List (Int × String)) (p : Int) : String :=
  match m with
  | [] => ""
  | (k, v) :: rest => if k = p then v else upstreamAt rest p

/-! ## Standard library functions used by the client -/

/-- The predicate `unicode.IsSpace`: the Latin-1 spaces and the code points with
the White_Space property. -/
def isSpace (c : Char) : Bool :=
  let n := c.toNat
  n = 0x09 || n = 0x0A || n = 0x0B || n = 0x0C || n = 0x0D || n = 0x20 ||
  n = 0x85 || n = 0xA0 || n = 0x1680 || (0x2000 ≤ n && n ≤ 0x200A) ||
  n = 0x2028 || n = 0x2029 || n = 0x202F || n = 0x205F || n = 0x3000

/-- The function `strings.TrimSpace`: removes all leading and trailing white space. -/
def TrimSpace (s : String) : String :=
  String.mk ((s.data.dropWhile isSpace).reverse.dropWhile isSpace).reverse

/-- Decimal digits of a natural number, most significant first. -/
def natDigits (fuel n : Nat) (acc : List Char) : List Char :=
  match fuel with
  | 0 => acc
  | fuel + 1 =>
    let acc1 := Char.ofNat (48 + n % 10) :: acc
    if n / 10 = 0 then acc1 else natDigits fuel (n / 10) acc1

/-- The verb `%d` of package `fmt` on an `int`: decimal digits, `-` before a
negative number. -/
def fmtD (n : Int) : String :=
  if n < 0 then String.mk ('-' :: natDigits (n.natAbs + 1) n.natAbs [])
  else String.mk (natDigits (n.natAbs + 1) n.natAbs [])

/-! ## The client -/

/-- The function `Version`. -/
def Version : String := "0.1.0"

/-- The function `New`: the arguments `s` are ignored; `xhttpNew` is the fresh
transport made by `xhttp.New()`. -/
def New {σ : Type} (xhttpNew : Request σ) (_s : List String) : Client σ :=
  { provides := DefaultProvides, xhttp := xhttpNew }

/-- The method `String` (the name `Client.String` would hide the type of strings
inside the namespace of the client). -/
def Client.string {σ : Type} (_c : Client σ) : String := "cloudflare"

/-- The method `SetProvides`; the client after the call. -/
def Client.SetProvides {σ : Type} (c : Client σ) (_p : Int) : Client σ :=
  { c with provides := DefaultProvides }

/-- Lines 91-103 of `ECSQuery`: the query parameters, or the error of
`xip.FixSubnet` with which the method returns early. -/
def ECSQuery_param (D : Deps) (d t s : String) : Except GoError QueryParam :=
  let param : QueryParam := [("name", TrimSpace d), ("type", TrimSpace t)]
  let ss := TrimSpace s
  if ss ≠ "" then
    match D.FixSubnet ss with
    | .error err => .error err
    | .ok ss1 => .ok (GoMap.set param "edns_client_subnet" ss1)
  else .ok param

/-- Lines 111-126 of `ECSQuery`: the part that runs between `defer rsp.Close()`
and the deferred call. -/
def ECSQuery_body {σ : Type} (D : Deps) (c : Client σ) (rsp : Handle) (w : World σ) :
    (Option Response × Option GoError) × World σ :=
  let r := c.xhttp.Bytes w.state rsp
  let w1 : World σ := { state := r.2, trace := w.trace ++ [Event.bytes rsp] }
  match r.1 with
  | .error err => ((none, some err), w1)
  | .ok buf =>
    match D.Decode buf with
    | .error err => ((none, some err), w1)
    | .ok rr =>
      if rr.Status ≠ 0 then
        ((some rr, some { msg := "doh: failed response code " ++ fmtD rr.Status }), w1)
      else ((some rr, none), w1)

/-- The method `ECSQuery`. -/
def Client.ECSQuery {σ : Type} (D : Deps) (c : Client σ) (ctx : Context) (d t s : String)
    (w : World σ) : (Option Response × Option GoError) × World σ :=
  match ECSQuery_param D d t s with
  | .error err => ((none, some err), w)
  | .ok param =>
    let url := upstreamAt Upstream c.provides
    let header : Header := [("accept", "application/dns-json")]
    let r := c.xhttp.Get w.state url param ctx header
    let w1 : World σ := { state := r.2, trace := w.trace ++ [Event.get url param ctx header] }
    match r.1 with
    | .error err => ((none, some err), w1)
    | .ok rsp =>
      let out := ECSQuery_body D c rsp w1
      (out.1, { state := c.xhttp.Close out.2.state rsp,
                trace := out.2.trace ++ [Event.close rsp] })

/-- The method `Query`. -/
def Client.Query {σ : Type} (D : Deps) (c : Client σ) (ctx : Context) (d t : String)
    (w : World σ) : (Option Response × Option GoError) × World σ :=
  c.ECSQuery D ctx d t "" w

/-! ## Observations on traces -/

/-- The `Get` calls of a trace, in order. -/
def getCalls (tr : List Event) : List (String × QueryParam × Context × Header) :=
  tr.filterMap fun e =>
    match e with
    | Event.get url param ctx header => some (url, param, ctx, header)
    | _ => none

/-- The `Close` calls of a trace, in order. -/
def closeCalls (tr : List Event) : List Handle :=
  tr.filterMap fun e =>
    match e with
    | Event.close rsp => some rsp
    | _ => none

/-! ## Test doubles -/

/-- A transport whose state counts the calls made on it.  `Get` fails when the
parameter `name` is `"down"` and otherwise returns handle `7`; `Bytes` fails on a
handle other than `7` and returns one byte taken from the call counter. -/
def stubRequest : Request Nat where
  Get := fun st _url param _ctx _hdr =>
    if GoMap.get param "name" = some "down" then (.error { msg := "dial tcp: timeout" }, st + 1)
    else (.ok 7, st + 1)
  Bytes := fun st rsp =>
    if rsp = 7 then (.ok [st], st + 1) else (.error { msg := "read: closed" }, st + 1)
  Close := fun st _ => st + 1

/-- A subnet fixer accepting one address, and a decoder of one-byte bodies: byte
`b` decodes to status `b - 1`, byte `9` and other lengths fail. -/
def stubDeps : Deps where
  FixSubnet := fun s =>
    if s = "1.2.3.4" then .ok "1.2.3.4/32" else .error { msg := "xip: invalid subnet" }
  Decode := fun buf =>
    match buf with
    | [9] => .error { msg := "unexpected end of JSON input" }
    | [b] => .ok { Status := (b : Int) - 1, fields := [] }
    | _ => .error { msg := "unexpected end of JSON input" }

/-! ## Lemmas on the model -/

/-- The digit character written by `natDigits` is the decimal digit character. -/
theorem digit_eq_digitChar (k : Nat) (hk : k < 10) : Char.ofNat (48 + k) = Nat.digitChar k := by
  interval_cases k <;> rfl

theorem natDigits_eq_toDigitsCore (fuel n : Nat) (acc : List Char) :
    natDigits fuel n acc = Nat.toDigitsCore 10 fuel n acc := by
  induction fuel generalizing n acc with
  | zero => rfl
  | succ f ih =>
    simp only [natDigits, Nat.toDigitsCore,
      digit_eq_digitChar (n % 10) (Nat.mod_lt _ (by decide)), ih]

/-- The rendering `fmtD` is the usual decimal rendering of an integer. -/
theorem fmtD_eq_toString (n : Int) : fmtD n = toString n := by
  cases n with
  | ofNat m =>
    have h : ¬ (Int.ofNat m < 0) := by simp
    simp only [fmtD, h, if_false, natDigits_eq_toDigitsCore]
    rfl
  | negSucc m =>
    have h : Int.negSucc m < 0 := Int.negSucc_lt_zero m
    simp only [fmtD, h, if_true, natDigits_eq_toDigitsCore]
    rfl

theorem head_dropWhile_false {α : Type} (p : α → Bool) (l : List α) (a : α)
    (h : (l.dropWhile p).head? = some a) : p a = false := by
  have hnot := List.head?_dropWhile_not p l
  rw [h] at hnot
  exact hnot

/-- Dropping from the end keeps the first element. -/
theorem head_reverse_dropWhile_reverse {α : Type} (p : α → Bool) (l : List α) (a : α)
    (h : ((l.reverse.dropWhile p).reverse).head? = some a) : l.head? = some a := by
  obtain ⟨pre, hpre⟩ : ∃ pre, pre ++ l.reverse.dropWhile p = l.reverse :=
    (List.dropWhile_suffix p)
  have h2 : l = (l.reverse.dropWhile p).reverse ++ pre.reverse := by
    have hrev := congrArg List.reverse hpre
    simpa using hrev.symm
  rw [h2]
  cases hl : (l.reverse.dropWhile p).reverse with
  | nil => rw [hl] at h; cases h
  | cons x xs => rw [hl] at h; simpa using h

/-- A trimmed string does not start with white space. -/
theorem TrimSpace_head (s : String) (a : Char) (h : (TrimSpace s).data.head? = some a) :
    isSpace a = false := by
  unfold TrimSpace at h
  exact head_dropWhile_false isSpace s.data a (head_reverse_dropWhile_reverse isSpace _ a h)

/-- A trimmed string does not end with white space. -/
theorem TrimSpace_last (s : String) (a : Char) (h : (TrimSpace s).data.getLast? = some a) :
    isSpace a = false := by
  unfold TrimSpace at h
  simp only [List.getLast?_reverse] at h
  exact head_dropWhile_false isSpace _ a h

/-- A trimmed string is a contiguous part of the string it was trimmed from. -/
theorem TrimSpace_infix (s : String) : (TrimSpace s).data <:+: s.data := by
  have h1 : s.data.dropWhile isSpace <:+ s.data := List.dropWhile_suffix isSpace
  have h2 : (s.data.dropWhile isSpace).reverse.dropWhile isSpace <:+
      (s.data.dropWhile isSpace).reverse := List.dropWhile_suffix isSpace
  have h3 : ((s.data.dropWhile isSpace).reverse.dropWhile isSpace).reverse <+:
      s.data.dropWhile isSpace := by
    have h4 := List.reverse_prefix.mpr h2
    simpa using h4
  exact h3.isInfix.trans h1.isInfix

theorem getCalls_append (a b : List Event) : getCalls (a ++ b) = getCalls a ++ getCalls b := by
  simp [getCalls, List.filterMap_append]

theorem closeCalls_append (a b : List Event) :
    closeCalls (a ++ b) = closeCalls a ++ closeCalls b := by
  simp [closeCalls, List.filterMap_append]

/-- With a hint that is empty after trimming the parameters are `name` and `type`. -/
theorem ECSQuery_param_of_empty (D : Deps) (d t s : String) (hs : TrimSpace s = "") :
    ECSQuery_param D d t s = .ok [("name", TrimSpace d), ("type", TrimSpace t)] := by
  simp [ECSQuery_param, hs]

/-- With a hint the normalizer accepts the parameters carry the normalized subnet. -/
theorem ECSQuery_param_of_fixed (D : Deps) (d t s sn : String) (hs : TrimSpace s ≠ "")
    (hfix : D.FixSubnet (TrimSpace s) = .ok sn) :
    ECSQuery_param D d t s =
      .ok [("name", TrimSpace d), ("type", TrimSpace t), ("edns_client_subnet", sn)] := by
  simp [ECSQuery_param, hs, hfix, GoMap.set]

/-- With a hint the normalizer rejects there are no parameters, only its error. -/
theorem ECSQuery_param_of_rejected (D : Deps) (d t s : String) (e : GoError)
    (hs : TrimSpace s ≠ "") (hfix : D.FixSubnet (TrimSpace s) = .error e) :
    ECSQuery_param D d t s = .error e := by
  simp [ECSQuery_param, hs, hfix]

/-- The parameters exist exactly when the hint is empty after trimming or accepted
by the normalizer. -/
theorem ECSQuery_param_ok_iff (D : Deps) (d t s : String) (param : QueryParam) :
    ECSQuery_param D d t s = .ok param ↔
      (TrimSpace s = "" ∧ param = [("name", TrimSpace d), ("type", TrimSpace t)]) ∨
      (TrimSpace s ≠ "" ∧ ∃ sn, D.FixSubnet (TrimSpace s) = .ok sn ∧
        param = [("name", TrimSpace d), ("type", TrimSpace t), ("edns_client_subnet", sn)]) := by
  by_cases hs : TrimSpace s = ""
  · rw [ECSQuery_param_of_empty D d t s hs]
    constructor
    · intro h
      injection h with h
      exact Or.inl ⟨hs, h.symm⟩
    · rintro (⟨_, h⟩ | ⟨h, _⟩)
      · rw [h]
      · exact absurd hs h
  · cases hfix : D.FixSubnet (TrimSpace s) with
    | error e =>
      rw [ECSQuery_param_of_rejected D d t s e hs hfix]
      constructor
      · intro h
        cases h
      · rintro (⟨h, _⟩ | ⟨_, sn, h, _⟩)
        · exact absurd h hs
        · cases h
    | ok sn =>
      rw [ECSQuery_param_of_fixed D d t s sn hs hfix]
      constructor
      · intro h
        injection h with h
        exact Or.inr ⟨hs, sn, rfl, h.symm⟩
      · rintro (⟨h, _⟩ | ⟨_, sn1, h, hp⟩)
        · exact absurd h hs
        · injection h with h
          rw [hp, h]

/-- The body makes exactly one call, `Bytes` on the handle. -/
theorem ECSQuery_body_trace {σ : Type} (D : Deps) (c : Client σ) (rsp : Handle) (w : World σ) :
    (ECSQuery_body D c rsp w).2.trace = w.trace ++ [Event.bytes rsp] := by
  unfold ECSQuery_body
  cases c.xhttp.Bytes w.state rsp with
  | mk r st =>
    cases r with
    | error e => rfl
    | ok buf =>
      simp only
      cases D.Decode buf with
      | error e => rfl
      | ok rr =>
        simp only
        split <;> rfl

/-- The method when the normalizer rejects the hint: nothing is called. -/
theorem ECSQuery_of_param_error {σ : Type} (D : Deps) (c : Client σ) (ctx : Context)
    (d t s : String) (w : World σ) (e : GoError) (hparam : ECSQuery_param D d t s = .error e) :
    c.ECSQuery D ctx d t s w = ((none, some e), w) := by
  simp [Client.ECSQuery, hparam]

/-- The method when `Get` fails: one call, no response. -/
theorem ECSQuery_of_get_error {σ : Type} (D : Deps) (c : Client σ) (ctx : Context)
    (d t s : String) (w : World σ) (param : QueryParam) (e : GoError) (st1 : σ)
    (hparam : ECSQuery_param D d t s = .ok param)
    (hget : c.xhttp.Get w.state (upstreamAt Upstream c.provides) param ctx
      [("accept", "application/dns-json")] = (.error e, st1)) :
    c.ECSQuery D ctx d t s w =
      ((none, some e),
        { state := st1
          trace := w.trace ++ [Event.get (upstreamAt Upstream c.provides) param ctx
            [("accept", "application/dns-json")]] }) := by
  simp [Client.ECSQuery, hparam, hget]

/-- The method when `Get` succeeds: the body runs on the handle and the handle is
closed afterwards. -/
theorem ECSQuery_of_get_ok {σ : Type} (D : Deps) (c : Client σ) (ctx : Context)
    (d t s : String) (w : World σ) (param : QueryParam) (rsp : Handle) (st1 : σ)
    (hparam : ECSQuery_param D d t s = .ok param)
    (hget : c.xhttp.Get w.state (upstreamAt Upstream c.provides) param ctx
      [("accept", "application/dns-json")] = (.ok rsp, st1)) :
    c.ECSQuery D ctx d t s w =
      ((ECSQuery_body D c rsp
          { state := st1
            trace := w.trace ++ [Event.get (upstreamAt Upstream c.provides) param ctx
              [("accept", "application/dns-json")]] }).1,
        { state := c.xhttp.Close (ECSQuery_body D c rsp
            { state := st1
              trace := w.trace ++ [Event.get (upstreamAt Upstream c.provides) param ctx
                [("accept", "application/dns-json")]] }).2.state rsp
          trace := w.trace ++ [Event.get (upstreamAt Upstream c.provides) param ctx
            [("accept", "application/dns-json")], Event.bytes rsp, Event.close rsp] }) := by
  have ht := ECSQuery_body_trace D c rsp
    { state := st1
      trace := w.trace ++ [Event.get (upstreamAt Upstream c.provides) param ctx
        [("accept", "application/dns-json")]] }
  simp [Client.ECSQuery, hparam, hget, ht]

/-- Any number of `SetProvides` calls after `New` leaves the selector at the default. -/
theorem provides_foldl_SetProvides {σ : Type} (ps : List Int) (c : Client σ)
    (hc : c.provides = DefaultProvides) :
    (ps.foldl Client.SetProvides c).provides = DefaultProvides := by
  induction ps generalizing c with
  | nil => exact hc
  | cons p ps ih => exact ih (c.SetProvides p) rfl

/-! ## Response validation -/

/-- C1: when the request reaches the transport, `Get` and `Bytes` succeed and the
body decodes to a response `rr` whose status is not zero, `ECSQuery` returns `rr`
itself together with an error whose message is `doh: failed response code `
followed by the decimal rendering of the status. -/
theorem ECSQuery_nonzero_status {σ : Type} (D : Deps) (c : Client σ) (ctx : Context)
    (d t s : String) (w : World σ) (param : QueryParam) (rsp : Handle) (st1 st2 : σ)
    (buf : List Nat) (rr : Response)
    (hparam : ECSQuery_param D d t s = .ok param)
    (hget : c.xhttp.Get w.state (upstreamAt Upstream c.provides) param ctx
      [("accept", "application/dns-json")] = (.ok rsp, st1))
    (hbytes : c.xhttp.Bytes st1 rsp = (.ok buf, st2))
    (hdec : D.Decode buf = .ok rr)
    (hst : rr.Status ≠ 0) :
    (c.ECSQuery D ctx d t s w).1 =
      (some rr, some { msg := "doh: failed response code " ++ fmtD rr.Status }) := by
  rw [ECSQuery_of_get_ok D c ctx d t s w param rsp st1 hparam hget]
  simp [ECSQuery_body, hbytes, hdec, hst]

theorem ECSQuery_nonzero_status_witness :
    ECSQuery_param stubDeps " example.com" "A " "" = .ok [("name", "example.com"), ("type", "A")] ∧
    stubRequest.Get 2 (upstreamAt Upstream (New stubRequest []).provides)
      [("name", "example.com"), ("type", "A")] 0 [("accept", "application/dns-json")]
        = (.ok 7, 3) ∧
    stubRequest.Bytes 3 7 = (.ok [3], 4) ∧
    stubDeps.Decode [3] = .ok { Status := 2, fields := [] } ∧
    (2 : Int) ≠ 0 ∧
    ((New stubRequest []).ECSQuery stubDeps 0 " example.com" "A " ""
        { state := 2, trace := [] }).1 =
      (some { Status := 2, fields := [] }, some { msg := "doh: failed response code 2" }) :=
  ⟨rfl, rfl, rfl, rfl, by decide,
    ECSQuery_nonzero_status stubDeps (New stubRequest []) 0 " example.com" "A " ""
      { state := 2, trace := [] } [("name", "example.com"), ("type", "A")] 7 3 4 [3]
      { Status := 2, fields := [] } rfl rfl rfl rfl (by decide)⟩

/-- C2: when the parameters exist (by `ECSQuery_param_ok_iff`: the hint is empty
after trimming or accepted by the normalizer), `Get` and `Bytes` succeed and the body
decodes to a response `rr` with status zero, `ECSQuery` returns exactly `rr` and the
nil error. -/
theorem ECSQuery_zero_status {σ : Type} (D : Deps) (c : Client σ) (ctx : Context)
    (d t s : String) (w : World σ) (param : QueryParam) (rsp : Handle) (st1 st2 : σ)
    (buf : List Nat) (rr : Response)
    (hparam : ECSQuery_param D d t s = .ok param)
    (hget : c.xhttp.Get w.state (upstreamAt Upstream c.provides) param ctx
      [("accept", "application/dns-json")] = (.ok rsp, st1))
    (hbytes : c.xhttp.Bytes st1 rsp = (.ok buf, st2))
    (hdec : D.Decode buf = .ok rr)
    (hst : rr.Status = 0) :
    (c.ECSQuery D ctx d t s w).1 = (some rr, none) := by
  rw [ECSQuery_of_get_ok D c ctx d t s w param rsp st1 hparam hget]
  simp [ECSQuery_body, hbytes, hdec, hst]

theorem ECSQuery_zero_status_witness :
    ECSQuery_param stubDeps "example.com" "AAAA" " 1.2.3.4 " =
      .ok [("name", "example.com"), ("type", "AAAA"), ("edns_client_subnet", "1.2.3.4/32")] ∧
    stubRequest.Get 0 (upstreamAt Upstream (New stubRequest []).provides)
      [("name", "example.com"), ("type", "AAAA"), ("edns_client_subnet", "1.2.3.4/32")] 5
      [("accept", "application/dns-json")] = (.ok 7, 1) ∧
    stubRequest.Bytes 1 7 = (.ok [1], 2) ∧
    stubDeps.Decode [1] = .ok { Status := 0, fields := [] } ∧
    ((New stubRequest []).ECSQuery stubDeps 5 "example.com" "AAAA" " 1.2.3.4 "
        { state := 0, trace := [] }).1 = (some { Status := 0, fields := [] }, none) :=
  ⟨rfl, rfl, rfl, rfl,
    ECSQuery_zero_status stubDeps (New stubRequest []) 5 "example.com" "AAAA" " 1.2.3.4 "
      { state := 0, trace := [] }
      [("name", "example.com"), ("type", "AAAA"), ("edns_client_subnet", "1.2.3.4/32")]
      7 1 2 [1] { Status := 0, fields := [] } rfl rfl rfl rfl rfl⟩

/-- C7: when the request reaches the transport, `Get` and `Bytes` succeed and
decoding the body fails with error `e`, `ECSQuery` returns the nil response and
exactly `e`. -/
theorem ECSQuery_decode_error {σ : Type} (D : Deps) (c : Client σ) (ctx : Context)
    (d t s : String) (w : World σ) (param : QueryParam) (rsp : Handle) (st1 st2 : σ)
    (buf : List Nat) (e : GoError)
    (hparam : ECSQuery_param D d t s = .ok param)
    (hget : c.xhttp.Get w.state (upstreamAt Upstream c.provides) param ctx
      [("accept", "application/dns-json")] = (.ok rsp, st1))
    (hbytes : c.xhttp.Bytes st1 rsp = (.ok buf, st2))
    (hdec : D.Decode buf = .error e) :
    (c.ECSQuery D ctx d t s w).1 = (none, some e) := by
  rw [ECSQuery_of_get_ok D c ctx d t s w param rsp st1 hparam hget]
  simp [ECSQuery_body, hbytes, hdec]

theorem ECSQuery_decode_error_witness :
    ECSQuery_param stubDeps "example.com" "TXT" "\t" =
      .ok [("name", "example.com"), ("type", "TXT")] ∧
    stubRequest.Get 8 (upstreamAt Upstream (New stubRequest []).provides)
      [("name", "example.com"), ("type", "TXT")] 0 [("accept", "application/dns-json")]
        = (.ok 7, 9) ∧
    stubRequest.Bytes 9 7 = (.ok [9], 10) ∧
    stubDeps.Decode [9] = .error { msg := "unexpected end of JSON input" } ∧
    ((New stubRequest []).ECSQuery stubDeps 0 "example.com" "TXT" "\t"
        { state := 8, trace := [] }).1 =
      (none, some { msg := "unexpected end of JSON input" }) :=
  ⟨rfl, rfl, rfl, rfl,
    ECSQuery_decode_error stubDeps (New stubRequest []) 0 "example.com" "TXT" "\t"
      { state := 8, trace := [] } [("name", "example.com"), ("type", "TXT")] 7 9 10 [9]
      { msg := "unexpected end of JSON input" } rfl rfl rfl rfl⟩

/-! ## Failures before a response exists -/

/-- C3: when the hint is not empty after trimming and the normalizer fails on it
with error `e`, `ECSQuery` returns the nil response and exactly `e`, and leaves the
world as it was: the trace gains no call, so the transport is not invoked. -/
theorem ECSQuery_fix_error {σ : Type} (D : Deps) (c : Client σ) (ctx : Context)
    (d t s : String) (w : World σ) (e : GoError)
    (hs : TrimSpace s ≠ "")
    (hfix : D.FixSubnet (TrimSpace s) = .error e) :
    (c.ECSQuery D ctx d t s w).1 = (none, some e) ∧
    (c.ECSQuery D ctx d t s w).2.trace = w.trace ∧
    getCalls (c.ECSQuery D ctx d t s w).2.trace = getCalls w.trace := by
  rw [ECSQuery_of_param_error D c ctx d t s w e (ECSQuery_param_of_rejected D d t s e hs hfix)]
  exact ⟨rfl, rfl, rfl⟩

theorem ECSQuery_fix_error_witness :
    TrimSpace " 300.1.1.1/8\n" ≠ "" ∧
    stubDeps.FixSubnet (TrimSpace " 300.1.1.1/8\n") = .error { msg := "xip: invalid subnet" } ∧
    ((New stubRequest []).ECSQuery stubDeps 0 "example.com" "A" " 300.1.1.1/8\n"
        { state := 0, trace := [] }).1 = (none, some { msg := "xip: invalid subnet" }) ∧
    ((New stubRequest []).ECSQuery stubDeps 0 "example.com" "A" " 300.1.1.1/8\n"
        { state := 0, trace := [] }).2.trace = [] ∧
    getCalls ((New stubRequest []).ECSQuery stubDeps 0 "example.com" "A" " 300.1.1.1/8\n"
        { state := 0, trace := [] }).2.trace = getCalls [] :=
  ⟨by decide, rfl,
    ECSQuery_fix_error stubDeps (New stubRequest []) 0 "example.com" "A" " 300.1.1.1/8\n"
      { state := 0, trace := [] } { msg := "xip: invalid subnet" } (by decide) rfl⟩

/-- C6: when the request reaches the transport and `Get` fails with error `e`,
`ECSQuery` returns the nil response and exactly `e`, and the trace gains exactly one
call, that `Get`: the transport is invoked once and nothing else is called. -/
theorem ECSQuery_get_error {σ : Type} (D : Deps) (c : Client σ) (ctx : Context)
    (d t s : String) (w : World σ) (param : QueryParam) (e : GoError) (st1 : σ)
    (hparam : ECSQuery_param D d t s = .ok param)
    (hget : c.xhttp.Get w.state (upstreamAt Upstream c.provides) param ctx
      [("accept", "application/dns-json")] = (.error e, st1)) :
    (c.ECSQuery D ctx d t s w).1 = (none, some e) ∧
    (c.ECSQuery D ctx d t s w).2.trace =
      w.trace ++ [Event.get (upstreamAt Upstream c.provides) param ctx
        [("accept", "application/dns-json")]] ∧
    (getCalls (c.ECSQuery D ctx d t s w).2.trace).length = (getCalls w.trace).length + 1 := by
  rw [ECSQuery_of_get_error D c ctx d t s w param e st1 hparam hget]
  refine ⟨rfl, rfl, ?_⟩
  simp [getCalls_append, getCalls]

theorem ECSQuery_get_error_witness :
    ECSQuery_param stubDeps "down" "A" "" = .ok [("name", "down"), ("type", "A")] ∧
    stubRequest.Get 0 (upstreamAt Upstream (New stubRequest []).provides)
      [("name", "down"), ("type", "A")] 0 [("accept", "application/dns-json")]
        = (.error { msg := "dial tcp: timeout" }, 1) ∧
    ((New stubRequest []).ECSQuery stubDeps 0 "down" "A" "" { state := 0, trace := [] }).1 =
      (none, some { msg := "dial tcp: timeout" }) ∧
    ((New stubRequest []).ECSQuery stubDeps 0 "down" "A" "" { state := 0, trace := [] }).2.trace =
      [] ++ [Event.get (upstreamAt Upstream (New stubRequest []).provides)
        [("name", "down"), ("type", "A")] 0 [("accept", "application/dns-json")]] ∧
    (getCalls ((New stubRequest []).ECSQuery stubDeps 0 "down" "A" ""
        { state := 0, trace := [] }).2.trace).length = (getCalls []).length + 1 :=
  ⟨rfl, rfl,
    ECSQuery_get_error stubDeps (New stubRequest []) 0 "down" "A" "" { state := 0, trace := [] }
      [("name", "down"), ("type", "A")] { msg := "dial tcp: timeout" } 1 rfl rfl⟩

/-! ## Request construction -/

/-- C4: when the hint is empty after trimming, `ECSQuery` makes one `Get` call, and
its parameter map has exactly the keys `name` and `type`, bound to the trimmed
domain and the trimmed type; `edns_client_subnet` and every other key is absent. -/
theorem ECSQuery_param_without_hint {σ : Type} (D : Deps) (c : Client σ) (ctx : Context)
    (d t s : String) (w : World σ)
    (hs : TrimSpace s = "") :
    ∃ param : QueryParam,
      getCalls (c.ECSQuery D ctx d t s w).2.trace =
        getCalls w.trace ++ [(upstreamAt Upstream c.provides, param, ctx,
          [("accept", "application/dns-json")])] ∧
      GoMap.keys param = ["name", "type"] ∧
      GoMap.get param "name" = some (TrimSpace d) ∧
      GoMap.get param "type" = some (TrimSpace t) ∧
      GoMap.get param "edns_client_subnet" = none ∧
      ∀ k, k ≠ "name" → k ≠ "type" → GoMap.get param k = none := by
  refine ⟨[("name", TrimSpace d), ("type", TrimSpace t)], ?_, rfl, ?_, ?_, ?_, ?_⟩
  · have hparam := ECSQuery_param_of_empty D d t s hs
    cases hget : c.xhttp.Get w.state (upstreamAt Upstream c.provides)
        [("name", TrimSpace d), ("type", TrimSpace t)] ctx
        [("accept", "application/dns-json")] with
    | mk r st1 =>
      cases r with
      | error e =>
        rw [ECSQuery_of_get_error D c ctx d t s w _ e st1 hparam hget]
        simp [getCalls_append, getCalls]
      | ok rsp =>
        rw [ECSQuery_of_get_ok D c ctx d t s w _ rsp st1 hparam hget]
        simp [getCalls_append, getCalls]
  · simp [GoMap.get]
  · simp [GoMap.get]
  · simp [GoMap.get]
  · intro k h1 h2
    simp [GoMap.get, Ne.symm h1, Ne.symm h2]

theorem ECSQuery_param_without_hint_witness :
    TrimSpace " \t " = "" ∧
    ∃ param : QueryParam,
      getCalls ((New stubRequest []).ECSQuery stubDeps 3 "  example.com\n" " MX " " \t "
          { state := 0, trace := [] }).2.trace =
        getCalls [] ++ [(upstreamAt Upstream (New stubRequest []).provides, param, 3,
          [("accept", "application/dns-json")])] ∧
      GoMap.keys param = ["name", "type"] ∧
      GoMap.get param "name" = some (TrimSpace "  example.com\n") ∧
      GoMap.get param "type" = some (TrimSpace " MX ") ∧
      GoMap.get param "edns_client_subnet" = none ∧
      ∀ k, k ≠ "name" → k ≠ "type" → GoMap.get param k = none :=
  ⟨by decide,
    ECSQuery_param_without_hint stubDeps (New stubRequest []) 3 "  example.com\n" " MX " " \t "
      { state := 0, trace := [] } (by decide)⟩

/-- C5: when the hint is not empty after trimming and the normalizer maps it to
`sn`, `ECSQuery` makes one `Get` call, and its parameter map has exactly the keys
`name`, `type` and `edns_client_subnet`, bound to the trimmed domain, the trimmed
type and `sn`; every other key is absent. -/
theorem ECSQuery_param_with_hint {σ : Type} (D : Deps) (c : Client σ) (ctx : Context)
    (d t s sn : String) (w : World σ)
    (hs : TrimSpace s ≠ "")
    (hfix : D.FixSubnet (TrimSpace s) = .ok sn) :
    ∃ param : QueryParam,
      getCalls (c.ECSQuery D ctx d t s w).2.trace =
        getCalls w.trace ++ [(upstreamAt Upstream c.provides, param, ctx,
          [("accept", "application/dns-json")])] ∧
      GoMap.keys param = ["name", "type", "edns_client_subnet"] ∧
      GoMap.get param "name" = some (TrimSpace d) ∧
      GoMap.get param "type" = some (TrimSpace t) ∧
      GoMap.get param "edns_client_subnet" = some sn ∧
      ∀ k, k ≠ "name" → k ≠ "type" → k ≠ "edns_client_subnet" → GoMap.get param k = none := by
  refine ⟨[("name", TrimSpace d), ("type", TrimSpace t), ("edns_client_subnet", sn)],
    ?_, rfl, ?_, ?_, ?_, ?_⟩
  · have hparam := ECSQuery_param_of_fixed D d t s sn hs hfix
    cases hget : c.xhttp.Get w.state (upstreamAt Upstream c.provides)
        [("name", TrimSpace d), ("type", TrimSpace t), ("edns_client_subnet", sn)] ctx
        [("accept", "application/dns-json")] with
    | mk r st1 =>
      cases r with
      | error e =>
        rw [ECSQuery_of_get_error D c ctx d t s w _ e st1 hparam hget]
        simp [getCalls_append, getCalls]
      | ok rsp =>
        rw [ECSQuery_of_get_ok D c ctx d t s w _ rsp st1 hparam hget]
        simp [getCalls_append, getCalls]
  · simp [GoMap.get]
  · simp [GoMap.get]
  · simp [GoMap.get]
  · intro k h1 h2 h3
    simp [GoMap.get, Ne.symm h1, Ne.symm h2, Ne.symm h3]

theorem ECSQuery_param_with_hint_witness :
    TrimSpace " 1.2.3.4\n" ≠ "" ∧
    stubDeps.FixSubnet (TrimSpace " 1.2.3.4\n") = .ok "1.2.3.4/32" ∧
    ∃ param : QueryParam,
      getCalls ((New stubRequest []).ECSQuery stubDeps 3 " example.com " "A" " 1.2.3.4\n"
          { state := 0, trace := [] }).2.trace =
        getCalls [] ++ [(upstreamAt Upstream (New stubRequest []).provides, param, 3,
          [("accept", "application/dns-json")])] ∧
      GoMap.keys param = ["name", "type", "edns_client_subnet"] ∧
      GoMap.get param "name" = some (TrimSpace " example.com ") ∧
      GoMap.get param "type" = some (TrimSpace "A") ∧
      GoMap.get param "edns_client_subnet" = some "1.2.3.4/32" ∧
      ∀ k, k ≠ "name" → k ≠ "type" → k ≠ "edns_client_subnet" → GoMap.get param k = none :=
  ⟨by decide, rfl,
    ECSQuery_param_with_hint stubDeps (New stubRequest []) 3 " example.com " "A" " 1.2.3.4\n"
      "1.2.3.4/32" { state := 0, trace := [] } (by decide) rfl⟩

/-! ## The plain query and the variant selector -/

/-- C8: for every client, context, domain, type, world and every behaviour of the
transport, the normalizer and the decoder, `Query` gives the same response, the same
error and the same world after the call (so the same calls on the transport, with
the same arguments) as `ECSQuery` with the empty hint. -/
theorem Query_eq_ECSQuery {σ : Type} (D : Deps) (c : Client σ) (ctx : Context)
    (d t : String) (w : World σ) :
    c.Query D ctx d t w = c.ECSQuery D ctx d t "" w ∧
    (c.Query D ctx d t w).1.1 = (c.ECSQuery D ctx d t "" w).1.1 ∧
    (c.Query D ctx d t w).1.2 = (c.ECSQuery D ctx d t "" w).1.2 ∧
    getCalls (c.Query D ctx d t w).2.trace = getCalls (c.ECSQuery D ctx d t "" w).2.trace :=
  ⟨rfl, rfl, rfl, rfl⟩

/-- C9: after `SetProvides p` the selector is `DefaultProvides`, for every `p`; and
for every client obtained from `New` by any sequence of `SetProvides` calls, a query
whose parameters exist makes one `Get` call, with the URL
`https://cloudflare-dns.com/dns-query` and the single header
`accept: application/dns-json`. -/
theorem SetProvides_default_upstream {σ : Type} (D : Deps) (x : Request σ)
    (args : List String) (ps : List Int) (ctx : Context) (d t s : String) (w : World σ)
    (param : QueryParam)
    (hparam : ECSQuery_param D d t s = .ok param) :
    (∀ (c : Client σ) (p : Int), (c.SetProvides p).provides = DefaultProvides) ∧
    (ps.foldl Client.SetProvides (New x args)).provides = DefaultProvides ∧
    getCalls ((ps.foldl Client.SetProvides (New x args)).ECSQuery D ctx d t s w).2.trace =
      getCalls w.trace ++ [("https://cloudflare-dns.com/dns-query", param, ctx,
        [("accept", "application/dns-json")])] := by
  have hp := provides_foldl_SetProvides ps (New x args) rfl
  refine ⟨fun _ _ => rfl, hp, ?_⟩
  have hurl : upstreamAt Upstream (ps.foldl Client.SetProvides (New x args)).provides =
      "https://cloudflare-dns.com/dns-query" := by
    rw [hp]
    rfl
  cases hget : (ps.foldl Client.SetProvides (New x args)).xhttp.Get w.state
      (upstreamAt Upstream (ps.foldl Client.SetProvides (New x args)).provides) param ctx
      [("accept", "application/dns-json")] with
  | mk r st1 =>
    cases r with
    | error e =>
      rw [ECSQuery_of_get_error D _ ctx d t s w param e st1 hparam hget]
      simp [getCalls_append, getCalls, hurl]
    | ok rsp =>
      rw [ECSQuery_of_get_ok D _ ctx d t s w param rsp st1 hparam hget]
      simp [getCalls_append, getCalls, hurl]

theorem SetProvides_default_upstream_witness :
    ECSQuery_param stubDeps "example.com" "A" "" = .ok [("name", "example.com"), ("type", "A")] ∧
    (∀ (c : Client Nat) (p : Int), (c.SetProvides p).provides = DefaultProvides) ∧
    (([5, -1, 0].foldl Client.SetProvides (New stubRequest ["x"])).provides = DefaultProvides) ∧
    getCalls (([5, -1, 0].foldl Client.SetProvides (New stubRequest ["x"])).ECSQuery stubDeps 0
        "example.com" "A" "" { state := 0, trace := [] }).2.trace =
      getCalls [] ++ [("https://cloudflare-dns.com/dns-query",
        [("name", "example.com"), ("type", "A")], 0, [("accept", "application/dns-json")])] :=
  ⟨rfl,
    SetProvides_default_upstream stubDeps stubRequest ["x"] [5, -1, 0] 0 "example.com" "A" ""
      { state := 0, trace := [] } [("name", "example.com"), ("type", "A")] rfl⟩

/-! ## Release of the response handle -/

/-- C10: when the request reaches the transport, then for every behaviour of `Bytes`
and of the decoder (body-read failure, decode failure, non-zero status, success): if
`Get` succeeds with handle `rsp`, the calls of `ECSQuery` are that `Get`, `Bytes` on
`rsp` and, last, `Close` on `rsp`, so `rsp` is closed exactly once and the state
after the call is the one `Close` leaves; if `Get` fails, no `Close` is called. -/
theorem ECSQuery_close_once {σ : Type} (D : Deps) (c : Client σ) (ctx : Context)
    (d t s : String) (w : World σ) (param : QueryParam)
    (hparam : ECSQuery_param D d t s = .ok param) :
    (∀ (rsp : Handle) (st1 : σ),
      c.xhttp.Get w.state (upstreamAt Upstream c.provides) param ctx
        [("accept", "application/dns-json")] = (.ok rsp, st1) →
      (c.ECSQuery D ctx d t s w).2.trace =
        w.trace ++ [Event.get (upstreamAt Upstream c.provides) param ctx
          [("accept", "application/dns-json")], Event.bytes rsp, Event.close rsp] ∧
      closeCalls (c.ECSQuery D ctx d t s w).2.trace = closeCalls w.trace ++ [rsp] ∧
      (c.ECSQuery D ctx d t s w).2.state =
        c.xhttp.Close (c.xhttp.Bytes st1 rsp).2 rsp) ∧
    (∀ (e : GoError) (st1 : σ),
      c.xhttp.Get w.state (upstreamAt Upstream c.provides) param ctx
        [("accept", "application/dns-json")] = (.error e, st1) →
      closeCalls (c.ECSQuery D ctx d t s w).2.trace = closeCalls w.trace) := by
  constructor
  · intro rsp st1 hget
    rw [ECSQuery_of_get_ok D c ctx d t s w param rsp st1 hparam hget]
    refine ⟨rfl, ?_, ?_⟩
    · simp [closeCalls_append, closeCalls]
    · simp only [ECSQuery_body]
      cases c.xhttp.Bytes st1 rsp with
      | mk r st2 =>
        cases r with
        | error e => rfl
        | ok buf =>
          simp only
          cases D.Decode buf with
          | error e => rfl
          | ok rr =>
            simp only
            split <;> rfl
  · intro e st1 hget
    rw [ECSQuery_of_get_error D c ctx d t s w param e st1 hparam hget]
    simp [closeCalls_append, closeCalls]

theorem ECSQuery_close_once_witness :
    ECSQuery_param stubDeps "example.com" "A" "" = .ok [("name", "example.com"), ("type", "A")] ∧
    closeCalls ((New stubRequest []).ECSQuery stubDeps 0 "example.com" "A" ""
      { state := 8, trace := [Event.close 7] }).2.trace = closeCalls [Event.close 7] ++ [7] :=
  ⟨rfl,
    ((ECSQuery_close_once stubDeps (New stubRequest []) 0 "example.com" "A" ""
      { state := 8, trace := [Event.close 7] } [("name", "example.com"), ("type", "A")] rfl).1
        7 9 rfl).2.1⟩

end Cloudflare
